import Mathlib

/-!
Verification development for the GeoAi guessing-game backend.

This file shallowly embeds the inference core of the repository
(`backend/core/inference_engine.py`, `backend/core/probability_manager.py`,
`backend/core/confidence_calculator.py`, `backend/core/question_selector.py`,
`backend/algorithms/information_gain.py`, `backend/models/item_model.py`,
`backend/models/game_state.py`, `backend/config.py`) and proves properties
of the embedded definitions.  Python floats are modelled as exact rationals
(`ℚ`) for state, and as reals (`ℝ`) where logarithms enter (entropy,
information gain, confidence); Python exceptions are modelled with `Except`.
-/

/-- An item's attribute value: either a scalar (strings model the JSON
scalars compared with `==` in the source) or a list of scalars
(e.g. `flagColors`).  Mirrors the duck-typed `isinstance(value, list)`
branching in the source. -/
inductive AttrVal where
  | scalar (v : String)
  | vals (vs : List String)
  deriving DecidableEq, Repr

/-- `models/item_model.py` `Item`: identity, attribute map (embedded as an
association list, mirroring the Python dict), mutable belief weight,
elimination flag and the append-only `match_history` log of
`(question-text, matched)` pairs. -/
structure Item where
  id : Nat
  name : String
  attributes : List (String × AttrVal)
  probability : ℚ
  eliminated : Bool
  matchHistory : List (String × Bool)
  deriving DecidableEq, Repr

/-- A question-bank entry: `attribute`, `value`, display text
(`question['question']`, the identity used for "already asked"). -/
structure Question where
  attr : String
  value : String
  text : String
  deriving DecidableEq, Repr

/-- The match rule shared verbatim by `InferenceEngine._calculate_likelihood`,
`ProbabilityManager.update_item_probability`, `InformationGain._split_items`
and `Item.matches_question`: `item.attributes.get(attribute)`; a missing
attribute (`None`) never equals the target, a list value is a membership
test, a scalar value is an equality test. -/
def attrMatches (it : Item) (attrName targetValue : String) : Bool :=
  match it.attributes.lookup attrName with
  | none => false
  | some (.scalar v) => v == targetValue
  | some (.vals vs) => vs.contains targetValue

/-- `inference_engine.py` lines 328-365, `_calculate_likelihood`:
the likelihood multiplier actually applied by `process_answer`.
Note the values are 2.5/0.05 (etc.), hard-coded in the engine;
any unrecognized answer string falls to the final `else` branch
and yields the neutral multiplier 1.0. -/
def calcLikelihood (it : Item) (q : Question) (answer : String) : ℚ :=
  let isMatch := attrMatches it q.attr q.value
  if answer = "yes" then (if isMatch then 5/2 else 1/20)
  else if answer = "probably" then (if isMatch then 3/2 else 3/10)
  else if answer = "dontknow" then 1
  else if answer = "probablynot" then (if isMatch then 3/10 else 3/2)
  else if answer = "no" then (if isMatch then 1/20 else 5/2)
  else 1

/-- `probability_manager.py` lines 33-39, `self.likelihood_params`, together
with the dict lookup `self.likelihood_params.get(answer, ...['dontknow'])`
of line 87: `(match, mismatch)` multiplier pair for an answer, falling back
to the `dontknow` pair `(1, 1)` for unrecognized answers. -/
def likelihoodParams (answer : String) : ℚ × ℚ :=
  if answer = "yes" then (5/2, 1/20)
  else if answer = "probably" then (3/2, 3/10)
  else if answer = "dontknow" then (1, 1)
  else if answer = "probablynot" then (3/10, 3/2)
  else if answer = "no" then (1/20, 5/2)
  else (1, 1)

/-- `probability_manager.py` lines 24-30, `self.answer_confidence`, with the
`.get(answer, 0.5)` fallback of line 91. -/
def answerConfidence (answer : String) : ℚ :=
  if answer = "yes" then 19/20
  else if answer = "probably" then 3/4
  else if answer = "dontknow" then 1/2
  else if answer = "probablynot" then 3/4
  else if answer = "no" then 19/20
  else 1/2

/-- `probability_manager.py` lines 60-101, `update_item_probability`:
posterior weight of one item.  The likelihood is pulled towards the
neutral 1.0 by the answer-confidence factor, then the new weight is
exactly `prior * likelihood` — there is no epsilon floor anywhere. -/
def pmUpdateItemProbability (it : Item) (q : Question) (answer : String) : ℚ :=
  let prior := it.probability
  let isMatch := attrMatches it q.attr q.value
  let params := likelihoodParams answer
  let likelihood := if isMatch then params.1 else params.2
  let confidence := answerConfidence answer
  let likelihood := if confidence < 1 then 1 + (likelihood - 1) * confidence else likelihood
  prior * likelihood

/-- The active (non-eliminated) items, as computed by
`GameState.get_active_items` and the `[i for i in items if not i.eliminated]`
comprehensions throughout the source. -/
def activeItems (items : List Item) : List Item :=
  items.filter (fun i => !i.eliminated)

/-- Total belief mass of the active items. -/
def activeSum (items : List Item) : ℚ :=
  ((activeItems items).map Item.probability).sum

/-- `probability_manager.py` lines 103-131, `normalize_probabilities`:
no active items → unchanged; total of active weights exactly `0` →
every active item reset to the uniform `1/len(active)`; otherwise every
active item's weight divided by the total.  Eliminated items are untouched. -/
def pmNormalizeProbabilities (items : List Item) : List Item :=
  let active := activeItems items
  if active.isEmpty then items
  else
    let total := (active.map Item.probability).sum
    if total = 0 then
      items.map (fun it =>
        if it.eliminated then it
        else { it with probability := 1 / (active.length : ℚ) })
    else
      items.map (fun it =>
        if it.eliminated then it
        else { it with probability := it.probability / total })

/-- `inference_engine.py` lines 367-377, `_normalize_probabilities`:
divide each active item's weight by the active total if the total is
positive, otherwise leave all weights unchanged (no uniform reset here). -/
def engineNormalize (items : List Item) : List Item :=
  let total := activeSum items
  if 0 < total then
    items.map (fun it =>
      if it.eliminated then it
      else { it with probability := it.probability / total })
  else items

/-- `inference_engine.py` lines 379-388, `_soft_filter_items` with
`self.config['soft_filter_threshold'] = 0.01`: every item (active or not)
whose weight is below 0.01 is marked eliminated; nothing is ever
reactivated and no minimum number of survivors is enforced. -/
def engineSoftFilter (items : List Item) : List Item :=
  items.map (fun it =>
    if it.probability < 1/100 then { it with eliminated := true } else it)

/-- Ordering used to model Python's `sorted(key=lambda x: x.probability,
reverse=True)` on index-item pairs: descending by probability.  Python's
sort is stable, and `List.insertionSort` with this (total, transitive)
relation keeps equal-probability pairs in their original order, matching
CPython's stable descending sort. -/
def probDesc (a b : Nat × Item) : Prop :=
  b.2.probability ≤ a.2.probability

instance : DecidableRel probDesc := fun a b =>
  inferInstanceAs (Decidable (b.2.probability ≤ a.2.probability))

instance : IsTotal (Nat × Item) probDesc :=
  ⟨fun a b => le_total b.2.probability a.2.probability⟩

instance : IsTrans (Nat × Item) probDesc :=
  ⟨fun _ _ _ h1 h2 => le_trans h2 h1⟩

/-- The elimination pass of `probability_manager.py` lines 144-146: mark an
item below `threshold` eliminated, leave the rest alone. -/
def pmMark (threshold : ℚ) (it : Item) : Item :=
  if it.probability < threshold then { it with eliminated := true } else it

/-- The reactivation pass of `probability_manager.py` lines 151-154:
`sorted_items = sorted(items, key=lambda x: x.probability, reverse=True)`
followed by `sorted_items[i].eliminated = False` for
`i in range(min(3, len(sorted_items)))`.  Mutation of the shared Python
objects is modelled by sorting index-item pairs and clearing the
elimination flag at the corresponding list positions. -/
def pmReactivateTop (items1 : List Item) : List Item :=
  let sortedIdx := List.insertionSort probDesc items1.enum
  let topIdx := (sortedIdx.take 3).map Prod.fst
  items1.enum.map (fun p =>
    if p.1 ∈ topIdx then { p.2 with eliminated := false } else p.2)

/-- `probability_manager.py` lines 133-156, `soft_filter`: mark every item
below `threshold` eliminated; then, if fewer than 3 items remain active,
reactivate the first `min(3, len(items))` items of the list sorted by
probability in (stable) descending order. -/
def pmSoftFilter (threshold : ℚ) (items : List Item) : List Item :=
  let items1 := items.map (pmMark threshold)
  if (activeItems items1).length < 3 then pmReactivateTop items1
  else items1

/-- `models/game_state.py` `GameState`: per-session state. -/
structure GameState where
  category : String
  items : List Item
  questions : List Question
  questionsAsked : Nat
  askedQuestionIds : List String
  currentQuestion : Option Question
  answerHistory : List (Question × String)
  deriving DecidableEq, Repr

/-- Python exception kinds surfaced by the embedded engine operations:
`valueError` models `raise ValueError(...)`. -/
inductive EngineError where
  | valueError (msg : String)
  deriving DecidableEq, Repr

/-- Input record for `start_new_game` (an entry of the `items` list of
dicts, after `Item.from_dict`): identity plus attribute map. -/
structure ItemSpec where
  id : Nat
  name : String
  attributes : List (String × AttrVal)
  deriving DecidableEq, Repr

/-- `inference_engine.py` lines 60-96, `start_new_game`: build `Item`
objects, give each the uniform probability `1.0 / len(item_objects)`, and
create the fresh `GameState`.  The division sits inside the
`for item in item_objects:` loop, so an empty item list raises nothing:
the loop body never runs and a degenerate zero-item game is created
(modelled by the map over the empty list).  There is no validation of
`category` or of any other input.  (The Bayesian-network build and the
static feature-importance computation tolerate empty inputs and touch
neither the items nor the game state's fields; they are omitted.) -/
def startNewGame (category : String) (itemSpecs : List ItemSpec)
    (questions : List Question) : GameState :=
  { category := category
    items := itemSpecs.map (fun s =>
      { id := s.id, name := s.name, attributes := s.attributes
        probability := 1 / (itemSpecs.length : ℚ)
        eliminated := false, matchHistory := [] })
    questions := questions
    questionsAsked := 0
    askedQuestionIds := []
    currentQuestion := none
    answerHistory := [] }

/-- `game_state.py` `record_answer`: append `(current_question, answer)`
to the history when a current question is set. -/
def recordAnswer (g : GameState) (answer : String) : GameState :=
  match g.currentQuestion with
  | some q => { g with answerHistory := g.answerHistory ++ [(q, answer)] }
  | none => g

/-- The body of the per-item Bayesian update loop of
`inference_engine.py` lines 207-211: `item.probability *= likelihood`. -/
def engineUpdateItem (q : Question) (answer : String) (it : Item) : Item :=
  { it with probability := it.probability * calcLikelihood it q answer }

/-- `inference_engine.py` lines 185-242, `process_answer`, restricted to
its effect on the game state: reject with `ValueError` when no current
question is pending; otherwise record the answer, multiply every active
item's weight by its likelihood, normalize, and soft-filter.  (The
Bayesian-network belief nudge and the returned confidence/statistics read
the state but do not change it.) -/
def processAnswerState (g : GameState) (answer : String) :
    Except EngineError GameState :=
  match g.currentQuestion with
  | none => .error (.valueError "No active question to answer")
  | some q =>
    let g1 := recordAnswer g answer
    let updated := g1.items.map (fun it =>
      if it.eliminated then it else engineUpdateItem q answer it)
    let normalized := engineNormalize updated
    let filtered := engineSoftFilter normalized
    .ok { g1 with items := filtered }

/-- `inference_engine.py` line 195: `if not self.current_game or not
self.current_game.current_question: raise ValueError(...)` — the
no-active-game half of the guard, with `processAnswerState` handling the
no-current-question half. -/
def processAnswer (game : Option GameState) (answer : String) :
    Except EngineError GameState :=
  match game with
  | none => .error (.valueError "No active question to answer")
  | some g => processAnswerState g answer

/-- `algorithms/information_gain.py` lines 72-99, `calculate_entropy`:
Shannon entropy of the (normalized) weights, with the `epsilon = 1e-10`
guard added inside the logarithm.  Empty list or zero total → 0. -/
noncomputable def calculateEntropy (items : List Item) : ℝ :=
  if items.isEmpty then 0
  else
    let total : ℚ := (items.map Item.probability).sum
    if total = 0 then 0
    else
      -(items.map (fun it =>
        ((it.probability / total : ℚ) : ℝ) *
          Real.logb 2 ((it.probability / total : ℚ) + 1/10000000000))).sum

/-- `algorithms/information_gain.py` lines 229-259, `_split_items`:
partition a list into the items matching `(attribute, value)` and the
rest, preserving order (the Python loop appends to two lists). -/
def splitItems (items : List Item) (attrName value : String) :
    List Item × List Item :=
  (items.filter (fun it => attrMatches it attrName value),
   items.filter (fun it => !(attrMatches it attrName value)))

/-- `algorithms/information_gain.py` lines 23-70, `InformationGain.calculate`:
normalized information gain of a hypothetical split, clamped to [0, 1]. -/
noncomputable def infoGainCalculate (items : List Item)
    (attrName value : String) : ℝ :=
  let active := activeItems items
  if active.isEmpty then 0
  else
    let currentEntropy := calculateEntropy active
    let yesItems := (splitItems active attrName value).1
    let noItems := (splitItems active attrName value).2
    let totalWeight : ℚ := (active.map Item.probability).sum
    if totalWeight = 0 then 0
    else
      let yesWeight : ℝ := (((yesItems.map Item.probability).sum / totalWeight : ℚ) : ℝ)
      let noWeight : ℝ := (((noItems.map Item.probability).sum / totalWeight : ℚ) : ℝ)
      let expectedEntropy :=
        yesWeight * calculateEntropy yesItems + noWeight * calculateEntropy noItems
      let infoGain := currentEntropy - expectedEntropy
      let normalizedGain := if 0 < currentEntropy then infoGain / currentEntropy else 0
      max 0 (min 1 normalizedGain)

/-- Ordering used to model `sorted(items, key=lambda x: x.probability,
reverse=True)` on plain items (confidence calculator): stable descending
by probability. -/
def itemProbDesc (a b : Item) : Prop :=
  b.probability ≤ a.probability

instance : DecidableRel itemProbDesc := fun a b =>
  inferInstanceAs (Decidable (b.probability ≤ a.probability))

instance : IsTotal Item itemProbDesc :=
  ⟨fun a b => le_total b.probability a.probability⟩

instance : IsTrans Item itemProbDesc :=
  ⟨fun _ _ _ h1 h2 => le_trans h2 h1⟩

/-- `confidence_calculator.py` lines 79-110, `_probability_gap_confidence`:
confidence from the gap between the two top weights, mapped to [50, 100].
(The wildcard branch is unreachable: sorting preserves the length ≥ 2.) -/
def probabilityGapConfidence (items : List Item) : ℚ :=
  if items.length < 2 then 100
  else
    match List.insertionSort itemProbDesc items with
    | a :: b :: _ =>
      if a.probability + b.probability = 0 then 50
      else 50 + (a.probability - b.probability) / (a.probability + b.probability) * 50
    | _ => 100

/-- `confidence_calculator.py` lines 112-139,
`_normalized_probability_confidence`: the top weight as a share of the
total, scaled to a percentage. -/
def normalizedProbabilityConfidence (items : List Item) : ℚ :=
  if items.isEmpty then 0
  else
    let top := ((items.map Item.probability).max?).getD 0
    let total := (items.map Item.probability).sum
    if total = 0 then 50 else top / total * 100

/-- `confidence_calculator.py` lines 141-171, `_item_count_confidence`. -/
def itemCountConfidence (act : List Item) (totalItems : Nat) : ℚ :=
  if totalItems = 0 then 50
  else
    let activeCount := act.length
    let eliminationRate : ℚ := 1 - (activeCount : ℚ) / (totalItems : ℚ)
    if activeCount = 1 then 95
    else if activeCount = 2 then 85
    else if activeCount ≤ 5 then 70 + eliminationRate * 20
    else 30 + eliminationRate * 60

/-- `confidence_calculator.py` lines 173-212, `_entropy_confidence`. -/
noncomputable def entropyConfidence (items : List Item) : ℝ :=
  if items.isEmpty then 0
  else
    let total : ℚ := (items.map Item.probability).sum
    if total = 0 then 50
    else
      let entropy :=
        -(items.map (fun it =>
          ((it.probability / total : ℚ) : ℝ) *
            Real.logb 2 ((it.probability / total : ℚ) + 1/10000000000))).sum
      let maxEntropy := Real.logb 2 (items.length : ℝ)
      if maxEntropy = 0 then 100
      else (1 - entropy / maxEntropy) * 100

/-- `confidence_calculator.py` lines 27-77, `ConfidenceCalculator.calculate`:
0 with no active items; the sentinel `95.0` with exactly one active item;
otherwise the four-signal blend (weights 0.40/0.30/0.20/0.10) capped with
`min(95.0, ...)`.  Note the sentinel and the cap are 95.0 in this code. -/
noncomputable def confidenceCalculate (items : List Item) : ℝ :=
  let active := activeItems items
  if active.isEmpty then 0
  else if active.length = 1 then 95
  else
    min 95 ((2/5 : ℝ) * (probabilityGapConfidence active : ℝ)
      + (3/10 : ℝ) * (normalizedProbabilityConfidence active : ℝ)
      + (1/5 : ℝ) * (itemCountConfidence active items.length : ℝ)
      + (1/10 : ℝ) * entropyConfidence active)

/-- `confidence_calculator.py` lines 235-260, `should_make_guess`. -/
noncomputable def shouldMakeGuess (confidence : ℝ)
    (questionsAsked maxQuestions : Nat) : Bool :=
  if maxQuestions ≤ questionsAsked then true
  else if 95 ≤ confidence then true
  else if 85 ≤ confidence ∧ (maxQuestions : ℝ) * (7/10) ≤ (questionsAsked : ℝ) then true
  else false

/-- `question_selector.py` lines 28-39, `_get_default_stage_map`. -/
def stageMap : List (String × Nat) :=
  [("continent", 0), ("region", 1), ("subRegion", 1),
   ("hasCoast", 2), ("landlocked", 2), ("isIsland", 2), ("hasMountains", 2),
   ("climate", 2), ("avgTemperature", 2),
   ("population", 3), ("size", 3),
   ("government", 4), ("mainReligion", 4), ("driveSide", 4), ("exports", 4),
   ("language", 5), ("famousFor", 5), ("neighbors", 5), ("flagColors", 5),
   ("nationalDish", 5), ("funFact", 5),
   ("country", 6), ("city", 6), ("name", 6)]

/-- `question_selector.py` lines 41-43, `get_attribute_stage`:
`self.stage_map.get(attribute, 5)`. -/
def getAttributeStage (attrName : String) : Nat :=
  (stageMap.lookup attrName).getD 5

/-- The `str(v)` values an attribute takes among the given items, as a set
(`unique_values` of `_prune_redundant_questions`, lines 181-189): list
values contribute every element, scalars contribute themselves, missing
attributes contribute nothing. -/
def uniqueValuesFor (act : List Item) (attrName : String) : List String :=
  ((act.map (fun it =>
    match it.attributes.lookup attrName with
    | none => []
    | some (.scalar v) => [v]
    | some (.vals vs) => vs)).flatten).dedup

/-- `question_selector.py` lines 165-211, `_prune_redundant_questions`:
drop already-asked texts; drop questions whose attribute has ≤ 1 surviving
unique value and was already asked; drop over-asked (≥ 4) non-fine-grained
attributes of stage < 5; for small active sets (≤ 10) drop already-asked
broad location questions whose value has no support. -/
def pruneRedundantQuestions (avail : List Question) (act : List Item)
    (history : List (Question × String)) : List Question :=
  let askedAttrs := history.map (fun h => h.1.attr)
  let askedTexts := history.map (fun h => h.1.text)
  avail.filter (fun q =>
    if askedTexts.contains q.text then false
    else
      let uv := uniqueValuesFor act q.attr
      if uv.length ≤ 1 ∧ askedAttrs.contains q.attr then false
      else if 4 ≤ (history.filter (fun h => h.1.attr = q.attr)).length ∧
          q.attr ∉ ["famousFor", "neighbors"] ∧ getAttributeStage q.attr < 5 then false
      else if act.length ≤ 10 ∧ askedAttrs.contains q.attr ∧
          getAttributeStage q.attr ≤ 1 ∧ q.attr ∈ ["continent", "region"] ∧
          ¬ uv.contains q.value then false
      else true)

/-- Python exception kinds arising in the question-selection path. -/
inductive PyError where
  | typeError (msg : String)
  | keyError (key : String)
  deriving DecidableEq, Repr

/-- `question_selector.py` lines 86-163, `select_best_question`: return
`None` when at most `GAME_CONFIG['min_items_to_guess'] = 1` active item
remains or when pruning leaves no candidate.  Otherwise the scoring loop
runs; its first iteration evaluates the information-gain and stage terms
of the first candidate and then calls
`bayesian_network.score_question(question)` — but `score_question(self,
question, answer_history)` requires the `answer_history` argument, so that
call raises `TypeError` before any question can be returned (the computed
information-gain term is discarded when the exception propagates). -/
def selectBestQuestionEff (avail : List Question) (act : List Item)
    (history : List (Question × String)) : Except PyError (Option Question) :=
  if act.length ≤ 1 ∨ act.isEmpty then .ok none
  else
    let pruned := pruneRedundantQuestions avail act history
    if pruned.isEmpty then .ok none
    else .error (.typeError
      "score_question() missing 1 required positional argument: answer_history")

/-- A question dict as passed around the selector: `attribute` and `value`
are always present at the call sites; the display text under the key
`'question'` may be absent (`_score_question_by_balance` builds
`test_question = {'attribute': ..., 'value': ...}` without it). -/
structure QDict where
  attr : String
  value : String
  text : Option String
  deriving DecidableEq, Repr

/-- `models/item_model.py` lines 70-94, `Item.matches_question`: compute
the match, then evaluate `question['question']` to append
`(question['question'], matches)` to `match_history` — a `KeyError` when
the dict has no `'question'` key (nothing is appended in that case, since
the lookup is evaluated before the append). -/
def matchesQuestionEff (it : Item) (q : QDict) :
    Except PyError (Bool × Item) :=
  let isMatch := attrMatches it q.attr q.value
  match q.text with
  | none => .error (.keyError "question")
  | some t =>
    .ok (isMatch, { it with matchHistory := it.matchHistory ++ [(t, isMatch)] })

/-- One iteration of the loop of `_score_question_by_balance`
(lines 222-228): eliminated items are skipped without touching them;
each other item is run through `Item.matches_question`, counting it in
`total` and, when it matches, in `matches`.  The accumulator carries
`(total, matches, processed items)`. -/
def balanceStep (testQ : QDict) (acc : Nat × Nat × List Item) (it : Item) :
    Except PyError (Nat × Nat × List Item) :=
  if it.eliminated then .ok (acc.1, acc.2.1, acc.2.2 ++ [it])
  else do
    let r ← matchesQuestionEff it testQ
    .ok (acc.1 + 1, acc.2.1 + (if r.1 then 1 else 0), acc.2.2 ++ [r.2])

/-- `question_selector.py` lines 213-237, `_score_question_by_balance`:
build the stripped `test_question` dict (no `'question'` key), loop over
the items, and score `1 - |0.5 - matches/total| * 2`.  Because the
stripped dict lacks the `'question'` key, the first non-eliminated item's
`matches_question` call raises `KeyError('question')`. -/
def scoreQuestionByBalanceEff (items : List Item) (q : Question) :
    Except PyError (ℚ × List Item) :=
  if items.isEmpty then .ok (0, items)
  else do
    let testQ : QDict := ⟨q.attr, q.value, none⟩
    let r ← items.foldlM (balanceStep testQ) (0, 0, [])
    let total := r.1
    let matchCount := r.2.1
    if total = 0 then .ok (0, r.2.2)
    else .ok (1 - |1/2 - (matchCount : ℚ) / (total : ℚ)| * 2, r.2.2)

/-! Concrete instances used in the theorems below: the 4-item scenario of
the specification's §8 and a few small states exercising edge cases. -/

/-- Scenario item A: `continent = asia`, uniform prior 0.25. -/
def itemA : Item := ⟨0, "A", [("continent", .scalar "asia")], 1/4, false, []⟩

/-- Scenario item B: `continent = europe`, uniform prior 0.25. -/
def itemB : Item := ⟨1, "B", [("continent", .scalar "europe")], 1/4, false, []⟩

/-- Scenario item C: `continent = asia`, uniform prior 0.25. -/
def itemC : Item := ⟨2, "C", [("continent", .scalar "asia")], 1/4, false, []⟩

/-- Scenario item D: `continent = africa`, uniform prior 0.25. -/
def itemD : Item := ⟨3, "D", [("continent", .scalar "africa")], 1/4, false, []⟩

/-- The scenario question `(attribute: continent, value: asia)`. -/
def qAsia : Question := ⟨"continent", "asia", "Is it located in Asia?"⟩

/-- The 4-item scenario game right after `qAsia` was marked asked. -/
def scenarioGame : GameState :=
  ⟨"country", [itemA, itemB, itemC, itemD], [qAsia], 1, [qAsia.text],
    some qAsia, []⟩

/-- A matching item whose weight already sits at the claimed floor 1e-6. -/
def tinyItem : Item := ⟨7, "T", [("continent", .scalar "asia")], 1/1000000, false, []⟩

/-- An active item with weight 3e-13 (active total 1e-12 together with
`faintItem2`, i.e. below the claimed 1e-10 reset threshold). -/
def faintItem1 : Item := ⟨10, "F1", [], 3/10000000000000, false, []⟩

/-- An active item with weight 7e-13. -/
def faintItem2 : Item := ⟨11, "F2", [], 7/10000000000000, false, []⟩

/-- An active item below the 0.01 engine soft-filter threshold (weight
1/200), the highest-weight one among the `dimItem`s. -/
def dimItem1 : Item := ⟨20, "D1", [], 1/200, false, []⟩

/-- An active item with weight 1/250. -/
def dimItem2 : Item := ⟨21, "D2", [], 1/250, false, []⟩

/-- An active item with weight 1/300. -/
def dimItem3 : Item := ⟨22, "D3", [], 1/300, false, []⟩

/-- A game with no pending question (`current_question = None`). -/
def idleGame : GameState := ⟨"country", [itemA], [], 0, [], none, []⟩

/-- An active item with weight 1/2 (`continent = asia`). -/
def halfItem1 : Item := ⟨30, "H1", [("continent", .scalar "asia")], 1/2, false, []⟩

/-- An active item with weight 1/2 (`continent = europe`). -/
def halfItem2 : Item := ⟨31, "H2", [("continent", .scalar "europe")], 1/2, false, []⟩

/-- An active item with weight 1/4. -/
def quarterItem : Item := ⟨32, "Q1", [("continent", .scalar "asia")], 1/4, false, []⟩

/-- A normalized 2-item game with `qAsia` pending, for the
unrecognized-answer theorem. -/
def neutralGame : GameState :=
  ⟨"country", [halfItem1, halfItem2], [qAsia], 1, [qAsia.text], some qAsia, []⟩

/-- An active item holding almost all the mass (199/200). -/
def skewItem1 : Item := ⟨40, "S1", [("continent", .scalar "asia")], 199/200, false, []⟩

/-- An active item just below the 0.01 filter threshold (1/200). -/
def skewItem2 : Item := ⟨41, "S2", [("continent", .scalar "europe")], 1/200, false, []⟩

/-- A normalized two-item game (weights 199/200 + 1/200 = 1) with `qAsia`
pending, whose smaller active weight sits below the 0.01 soft-filter
threshold. -/
def skewGame : GameState :=
  ⟨"country", [skewItem1, skewItem2], [qAsia], 1, [qAsia.text], some qAsia, []⟩

/-! Helper lemmas. -/

/-- Summing a list divided pointwise equals the sum divided. -/
theorem sum_map_div (l : List ℚ) (d : ℚ) :
    (l.map (fun x => x / d)).sum = l.sum / d := by
  induction l with
  | nil => simp
  | cons x xs ih => simp [ih, add_div]

/-! Theorems for the claims. -/

/-- C1 counterexample: in the code path that processes answers
(`InferenceEngine._calculate_likelihood`), answering `yes` multiplies a
matching item's weight by 2.5 — not by 5.0 as claimed — and a
non-matching item's weight by 0.05, not 0.005. -/
theorem c1_yes_multiplier_counterexample :
    calcLikelihood itemA qAsia "yes" = 5/2 ∧ ¬ ((5 : ℚ)/2 = 5) ∧
    calcLikelihood itemB qAsia "yes" = 1/20 ∧ ¬ ((1 : ℚ)/20 = 1/200) :=
  ⟨rfl, by norm_num, rfl, by norm_num⟩

/-- C1 (amended): on the 4-item scenario with uniform priors 0.25 and
answer `yes` to `(continent, asia)`, the engine multiplies matching items
by 2.5 and non-matching ones by 0.05, so pre-normalization weights are
proportional to {A: 5/8, B: 1/80, C: 5/8, D: 1/80}; after normalization A
and C each hold 25/51 ≈ 0.490 and B and D each 1/102 ≈ 0.0098, and the
subsequent soft filter eliminates B and D (1/102 < 0.01). -/
theorem c1_scenario_amended :
    calcLikelihood itemA qAsia "yes" = 5/2 ∧
    calcLikelihood itemB qAsia "yes" = 1/20 ∧
    (processAnswerState scenarioGame "yes").toOption.map
      (fun g => g.items.map Item.probability)
      = some [25/51, 1/102, 25/51, 1/102] ∧
    (processAnswerState scenarioGame "yes").toOption.map
      (fun g => g.items.map Item.eliminated)
      = some [false, true, false, true] := by
  have h1 : ¬ ("europe" = "asia") := by decide
  have h2 : ¬ ("africa" = "asia") := by decide
  refine ⟨rfl, rfl, ?_, ?_⟩ <;>
    norm_num [processAnswerState, scenarioGame, recordAnswer, engineUpdateItem,
      engineNormalize, engineSoftFilter, activeSum, activeItems, calcLikelihood,
      attrMatches, itemA, itemB, itemC, itemD, qAsia, h1, h2, Except.toOption]

/-- C2 counterexample: updating a matching item whose weight is already
1e-6 on answer `no` yields exactly `1e-6 × 0.05 = 5e-8 < 1e-6` in the
engine and `1e-6 × 0.0975 = 9.75e-8 < 1e-6` in the probability manager:
no epsilon floor at ≈1e-6 exists in either update. -/
theorem c2_no_floor_counterexample :
    (engineUpdateItem qAsia "no" tinyItem).probability = 1/20000000 ∧
    ((1 : ℚ)/20000000) < 1/1000000 ∧
    pmUpdateItemProbability tinyItem qAsia "no" = 39/400000000 ∧
    ((39 : ℚ)/400000000) < 1/1000000 := by
  have hy : ¬ ("no" = "yes") := by decide
  have hp : ¬ ("no" = "probably") := by decide
  have hd : ¬ ("no" = "dontknow") := by decide
  have hpn : ¬ ("no" = "probablynot") := by decide
  refine ⟨?_, by norm_num, ?_, by norm_num⟩ <;>
    norm_num [engineUpdateItem, pmUpdateItemProbability, calcLikelihood,
      likelihoodParams, answerConfidence, attrMatches, tinyItem, qAsia,
      hy, hp, hd, hpn]

/-- C2 (amended): one probability-update step sets the new weight to
exactly `oldWeight × multiplier` with no floor; since every multiplier is
strictly positive (in both the engine's `_calculate_likelihood` table and
the probability manager's confidence-adjusted table), a positive weight
stays strictly positive — weights never become exactly 0 in exact
arithmetic, which is what permits later recovery. -/
theorem c2_update_no_floor_positive (it : Item) (q : Question) (a : String)
    (hpos : 0 < it.probability) :
    (engineUpdateItem q a it).probability
      = it.probability * calcLikelihood it q a ∧
    0 < calcLikelihood it q a ∧
    0 < (engineUpdateItem q a it).probability ∧
    0 < pmUpdateItemProbability it q a := by
  have hlik : 0 < calcLikelihood it q a := by
    cases hm : attrMatches it q.attr q.value <;>
      · simp only [calcLikelihood, hm]
        split_ifs <;> norm_num
  refine ⟨rfl, hlik, mul_pos hpos hlik, ?_⟩
  cases hm : attrMatches it q.attr q.value <;>
    · simp only [pmUpdateItemProbability, likelihoodParams, answerConfidence, hm]
      split_ifs <;> exact mul_pos hpos (by norm_num)

/-- C2 witness: the amended update theorem at a concrete input. -/
theorem c2_update_no_floor_positive_witness :
    (0 : ℚ) < tinyItem.probability ∧
    ((engineUpdateItem qAsia "no" tinyItem).probability
        = tinyItem.probability * calcLikelihood tinyItem qAsia "no" ∧
      0 < calcLikelihood tinyItem qAsia "no" ∧
      0 < (engineUpdateItem qAsia "no" tinyItem).probability ∧
      0 < pmUpdateItemProbability tinyItem qAsia "no") :=
  ⟨by norm_num [tinyItem],
    c2_update_no_floor_positive tinyItem qAsia "no" (by norm_num [tinyItem])⟩

/-- Probabilities of the active items after a per-item reweighting that
leaves eliminated items alone and gives a non-eliminated item `it` the new
weight `g it`. -/
theorem activeItems_map_prob (g : Item → ℚ) (items : List Item) :
    (activeItems (items.map (fun it => if it.eliminated then it
      else { it with probability := g it }))).map Item.probability
    = (activeItems items).map g := by
  induction items with
  | nil => rfl
  | cons x xs ih =>
    by_cases hx : x.eliminated <;>
      simp [activeItems, List.filter_cons, hx] at ih ⊢ <;> simpa using ih

/-- C3 counterexample: with two active items of weights 3e-13 and 7e-13 the
pre-normalization total is 1e-12, below the claimed hard epsilon 1e-10 —
yet `normalize_probabilities` divides by the tiny total (yielding 0.3 and
0.7) instead of resetting the active items to the uniform 0.5. -/
theorem c3_no_epsilon_reset_counterexample :
    activeSum [faintItem1, faintItem2] = 1/1000000000000 ∧
    activeSum [faintItem1, faintItem2] < 1/10000000000 ∧
    (pmNormalizeProbabilities [faintItem1, faintItem2]).map Item.probability
      = [3/10, 7/10] ∧
    ¬ ((3 : ℚ)/10 = 1/2) := by
  refine ⟨?_, ?_, ?_, by norm_num⟩ <;>
    norm_num [activeSum, activeItems, pmNormalizeProbabilities,
      faintItem1, faintItem2]

/-- C3 (amended): after an update-plus-normalize cycle the active weights
sum to exactly 1 whenever the pre-normalization total is nonzero (exact
arithmetic); the uniform reset of `normalize_probabilities` fires only
when the total is exactly 0 — not below an epsilon of 1e-10 — and the
engine's `_normalize_probabilities` leaves all weights unchanged (no
reset) on a non-positive total. -/
theorem c3_normalize_invariant (items : List Item)
    (hne : activeItems items ≠ []) :
    (activeSum items ≠ 0 →
      activeSum (pmNormalizeProbabilities items) = 1) ∧
    (activeSum items = 0 →
      ∀ it ∈ activeItems (pmNormalizeProbabilities items),
        it.probability = 1 / ((activeItems items).length : ℚ)) ∧
    (0 < activeSum items → activeSum (engineNormalize items) = 1) ∧
    (¬ 0 < activeSum items → engineNormalize items = items) := by
  have hempty : (activeItems items).isEmpty = false := by
    simpa [List.isEmpty_iff] using hne
  refine ⟨?_, ?_, ?_, ?_⟩
  · intro h0
    have h0' : ((activeItems items).map Item.probability).sum ≠ 0 := by
      simpa [activeSum] using h0
    simp only [pmNormalizeProbabilities, hempty, Bool.false_eq_true, if_false,
      if_neg h0']
    unfold activeSum
    rw [activeItems_map_prob]
    rw [show (activeItems items).map (fun it => it.probability /
        ((activeItems items).map Item.probability).sum)
      = ((activeItems items).map Item.probability).map (fun x => x /
        ((activeItems items).map Item.probability).sum) from by
      rw [List.map_map]; rfl]
    rw [sum_map_div, div_self h0']
  · intro h0 it hit
    have h0' : ((activeItems items).map Item.probability).sum = 0 := by
      simpa [activeSum] using h0
    simp only [pmNormalizeProbabilities, hempty, Bool.false_eq_true, if_false,
      if_pos h0'] at hit
    have hmem : it.probability ∈ (activeItems (items.map (fun it =>
        if it.eliminated then it
        else { it with probability := 1 / ((activeItems items).length : ℚ) }))).map
          Item.probability :=
      List.mem_map_of_mem Item.probability hit
    rw [activeItems_map_prob (fun _ => 1 / ((activeItems items).length : ℚ))] at hmem
    obtain ⟨a, _, h⟩ := List.mem_map.mp hmem
    exact h.symm
  · intro h0
    have h0' : ((activeItems items).map Item.probability).sum ≠ 0 := by
      simpa [activeSum] using h0.ne'
    simp only [engineNormalize, if_pos h0]
    unfold activeSum
    rw [activeItems_map_prob]
    rw [show (activeItems items).map (fun it => it.probability /
        ((activeItems items).map Item.probability).sum)
      = ((activeItems items).map Item.probability).map (fun x => x /
        ((activeItems items).map Item.probability).sum) from by
      rw [List.map_map]; rfl]
    rw [sum_map_div, div_self h0']
  · intro h0
    simp only [engineNormalize, if_neg h0]

/-- C3 witness: the normalization invariant at a concrete two-item state. -/
theorem c3_normalize_invariant_witness :
    activeItems [faintItem1, faintItem2] ≠ [] ∧
    ((activeSum [faintItem1, faintItem2] ≠ 0 →
      activeSum (pmNormalizeProbabilities [faintItem1, faintItem2]) = 1) ∧
    (activeSum [faintItem1, faintItem2] = 0 →
      ∀ it ∈ activeItems (pmNormalizeProbabilities [faintItem1, faintItem2]),
        it.probability = 1 / ((activeItems [faintItem1, faintItem2]).length : ℚ)) ∧
    (0 < activeSum [faintItem1, faintItem2] →
      activeSum (engineNormalize [faintItem1, faintItem2]) = 1) ∧
    (¬ 0 < activeSum [faintItem1, faintItem2] →
      engineNormalize [faintItem1, faintItem2] = [faintItem1, faintItem2])) :=
  ⟨by simp [activeItems, faintItem1, faintItem2],
    c3_normalize_invariant [faintItem1, faintItem2]
      (by simp [activeItems, faintItem1, faintItem2])⟩

/-- C7 counterexample: session start raises no invalid-input errors at
all: an unrecognized category with a non-empty item list yields a normal
game, and an empty candidate universe yields a degenerate zero-item game
(the uniform-prior division `1.0/len(item_objects)` sits inside the
per-item loop, which never runs), rather than any error. -/
theorem c7_no_start_validation_counterexample :
    (startNewGame "atlantis" [⟨0, "X", []⟩] []).category = "atlantis" ∧
    (startNewGame "atlantis" [⟨0, "X", []⟩] []).items.length = 1 ∧
    (startNewGame "country" [] []).items = [] :=
  ⟨rfl, rfl, rfl⟩

/-- C7 (amended): an answer with no pending question is rejected with
`ValueError("No active question to answer")` — both when no game is
active and when no current question is set.  Session start, by contrast,
raises no invalid-input error of any kind: `start_new_game` keeps
whatever category it is given unchecked, and an empty item list silently
produces a degenerate game with no items (the uniform-prior division is
inside the per-item loop and never executes). -/
theorem c7_invalid_state_error (g : GameState) (a cat : String)
    (specs : List ItemSpec) (qs : List Question)
    (hq : g.currentQuestion = none) :
    processAnswerState g a
      = .error (.valueError "No active question to answer") ∧
    processAnswer none a
      = .error (.valueError "No active question to answer") ∧
    (startNewGame cat specs qs).category = cat ∧
    (startNewGame cat [] qs).items = [] := by
  refine ⟨?_, rfl, rfl, rfl⟩
  · simp [processAnswerState, hq]

/-- C7 witness: the invalid-state rejection at a concrete pending-question-
free game, alongside the validation-free session start. -/
theorem c7_invalid_state_error_witness :
    idleGame.currentQuestion = none ∧
    (processAnswerState idleGame "yes"
        = .error (.valueError "No active question to answer") ∧
      processAnswer none "yes"
        = .error (.valueError "No active question to answer") ∧
      (startNewGame "country" [⟨0, "X", []⟩] []).category = "country" ∧
      (startNewGame "country" [] []).items = []) :=
  ⟨rfl, c7_invalid_state_error idleGame "yes" "country" [⟨0, "X", []⟩] [] rfl⟩

/-- C10 counterexample: on a normalized game whose active weights are
199/200 and 1/200, processing the unrecognized answer `xyzzy` leaves both
weights unchanged (the multiplier is the neutral 1.0), but the trailing
0.01 soft filter then eliminates the smaller item — the normalized
distribution over active items is not left unchanged: the active set
shrinks from 2 items to 1. -/
theorem c10_filter_shrinks_active_counterexample :
    ("xyzzy" ≠ "yes" ∧ "xyzzy" ≠ "probably" ∧ "xyzzy" ≠ "dontknow" ∧
      "xyzzy" ≠ "probablynot" ∧ "xyzzy" ≠ "no") ∧
    activeSum skewGame.items = 1 ∧
    (activeItems skewGame.items).length = 2 ∧
    (processAnswerState skewGame "xyzzy").toOption.map
      (fun g => g.items.map Item.probability) = some [199/200, 1/200] ∧
    (processAnswerState skewGame "xyzzy").toOption.map
      (fun g => (activeItems g.items).length) = some 1 := by
  have hy : ¬ ("xyzzy" = "yes") := by decide
  have hp : ¬ ("xyzzy" = "probably") := by decide
  have hd : ¬ ("xyzzy" = "dontknow") := by decide
  have hpn : ¬ ("xyzzy" = "probablynot") := by decide
  have hn : ¬ ("xyzzy" = "no") := by decide
  refine ⟨⟨hy, hp, hd, hpn, hn⟩, ?_, ?_, ?_, ?_⟩ <;>
    norm_num [processAnswerState, skewGame, recordAnswer, engineUpdateItem,
      engineNormalize, engineSoftFilter, activeSum, activeItems,
      calcLikelihood, attrMatches, skewItem1, skewItem2, qAsia,
      hy, hp, hd, hpn, hn, Except.toOption]

/-- C10 (amended): for any answer string outside the five enumerated
values the engine's `_calculate_likelihood` returns the neutral
multiplier 1.0 for every item and the probability manager's update
(falling back to the `dontknow` parameters) returns the weight
unchanged, so processing does not fail; a full `process_answer` state
cycle leaves every item's weight and elimination flag unchanged (only
the answer history grows) on a normalized state whose active weights all
sit at or above the 0.01 filter threshold — a caveat the trailing soft
filter forces, since it eliminates any active item whose unchanged
weight is below 0.01 (see the counterexample). -/
theorem c10_unknown_answer_neutral (it : Item) (q : Question) (a : String)
    (h1 : a ≠ "yes") (h2 : a ≠ "probably") (h3 : a ≠ "dontknow")
    (h4 : a ≠ "probablynot") (h5 : a ≠ "no") :
    calcLikelihood it q a = 1 ∧
    pmUpdateItemProbability it q a = it.probability ∧
    (∀ g : GameState, g.currentQuestion = some q → activeSum g.items = 1 →
      (∀ it' ∈ activeItems g.items, 1/100 ≤ it'.probability) →
      processAnswerState g a = .ok (recordAnswer g a)) := by
  have hl : ∀ it' : Item, calcLikelihood it' q a = 1 := fun it' => by
    simp [calcLikelihood, h1, h2, h3, h4, h5]
  refine ⟨hl it, ?_, ?_⟩
  · simp only [pmUpdateItemProbability, likelihoodParams, answerConfidence,
      h1, h2, h3, h4, h5, if_neg, if_false]
    norm_num
  · intro g hq hsum hmin
    have hrec : recordAnswer g a
        = { g with answerHistory := g.answerHistory ++ [(q, a)] } := by
      simp [recordAnswer, hq]
    have hupd : g.items.map (fun it => if it.eliminated then it
        else engineUpdateItem q a it) = g.items := by
      conv_rhs => rw [← List.map_id g.items]
      refine List.map_congr_left ?_
      intro x _
      by_cases he : x.eliminated
      · simp [he]
      · have hx : engineUpdateItem q a x = x := by
          unfold engineUpdateItem
          rw [hl, mul_one]
        simp [he, hx]
    have hnorm : engineNormalize g.items = g.items := by
      unfold engineNormalize
      rw [hsum]
      rw [if_pos (by norm_num : (0 : ℚ) < 1)]
      conv_rhs => rw [← List.map_id g.items]
      refine List.map_congr_left ?_
      intro x _
      by_cases he : x.eliminated
      · simp [he]
      · obtain ⟨i1, n1, at1, p1, el1, mh1⟩ := x
        simp only [Bool.not_eq_true] at he
        subst he
        simp [div_one]
    have hfilt : engineSoftFilter g.items = g.items := by
      unfold engineSoftFilter
      conv_rhs => rw [← List.map_id g.items]
      refine List.map_congr_left ?_
      intro x hmem
      by_cases he : x.eliminated
      · split_ifs with hp
        · obtain ⟨i1, n1, at1, p1, el1, mh1⟩ := x
          simp only at he
          subst he
          rfl
        · rfl
      · have hge : 1/100 ≤ x.probability :=
          hmin x (List.mem_filter.mpr ⟨hmem, by simp [he]⟩)
        rw [if_neg (not_lt.mpr hge)]
        rfl
    simp only [processAnswerState, hq, hrec]
    rw [show ({ g with answerHistory := g.answerHistory ++ [(q, a)] } :
      GameState).items = g.items from rfl]
    rw [hupd, hnorm, hfilt]

/-- C10 witness: processing the unrecognized answer string `xyzzy` on a
normalized two-item game leaves the items unchanged. -/
theorem c10_unknown_answer_neutral_witness :
    ("xyzzy" ≠ "yes" ∧ "xyzzy" ≠ "probably" ∧ "xyzzy" ≠ "dontknow" ∧
      "xyzzy" ≠ "probablynot" ∧ "xyzzy" ≠ "no") ∧
    calcLikelihood halfItem1 qAsia "xyzzy" = 1 ∧
    pmUpdateItemProbability halfItem1 qAsia "xyzzy" = halfItem1.probability ∧
    processAnswerState neutralGame "xyzzy" = .ok (recordAnswer neutralGame "xyzzy") := by
  have h := c10_unknown_answer_neutral halfItem1 qAsia "xyzzy"
    (by decide) (by decide) (by decide) (by decide) (by decide)
  exact ⟨⟨by decide, by decide, by decide, by decide, by decide⟩, h.1, h.2.1,
    h.2.2 neutralGame rfl
      (by norm_num [activeSum, activeItems, neutralGame, halfItem1, halfItem2])
      (by
        intro it' hit'
        simp only [neutralGame, activeItems, List.filter] at hit'
        norm_num [halfItem1, halfItem2] at hit' ⊢
        rcases hit' with h' | h' <;> rw [h'] <;> norm_num)⟩

/-- The reactivation pass leaves at least `min 3 l.length` items active:
the first `min(3, ·)` entries of the sorted list are explicitly cleared. -/
theorem pmReactivateTop_min_active (l : List Item) :
    min 3 l.length ≤ (activeItems (pmReactivateTop l)).length := by
  simp only [pmReactivateTop]
  set s := List.insertionSort probDesc l.enum with hs
  set topIdx := (s.take 3).map Prod.fst with ht
  set f : Nat × Item → Item := fun p =>
    if p.1 ∈ topIdx then { p.2 with eliminated := false } else p.2 with hf
  have hperm : List.Perm l.enum s := (List.perm_insertionSort probDesc l.enum).symm
  have h1 : (activeItems (l.enum.map f)).length
      = (l.enum.map f).countP (fun it => !it.eliminated) := by
    rw [activeItems, List.countP_eq_length_filter]
  have h2 : (l.enum.map f).countP (fun it => !it.eliminated)
      = l.enum.countP (fun p => !(f p).eliminated) := by
    rw [List.countP_map]
    rfl
  have h3 : l.enum.countP (fun p => !(f p).eliminated)
      = s.countP (fun p => !(f p).eliminated) := hperm.countP_eq _
  have h4 : (s.take 3).countP (fun p => !(f p).eliminated)
      = (s.take 3).length := by
    refine List.countP_eq_length.mpr ?_
    intro p hp
    have hmem : p.1 ∈ topIdx := List.mem_map_of_mem Prod.fst hp
    simp [hf, hmem]
  have h5 : (s.take 3).length = min 3 l.length := by
    rw [List.length_take]
    congr 1
    rw [← hperm.length_eq, List.enum_length]
  calc min 3 l.length = (s.take 3).countP (fun p => !(f p).eliminated) := by
        rw [h4, h5]
    _ ≤ s.countP (fun p => !(f p).eliminated) := by
        conv_rhs => rw [← List.take_append_drop 3 s]
        rw [List.countP_append]
        exact Nat.le_add_right _ _
    _ = (activeItems (l.enum.map f)).length := by rw [h1, h2, h3]

/-- `soft_filter` always leaves at least `min 3 n` items active. -/
theorem pmSoftFilter_min_active (t : ℚ) (items : List Item) :
    min 3 items.length ≤ (activeItems (pmSoftFilter t items)).length := by
  simp only [pmSoftFilter]
  by_cases hb : (activeItems (items.map (pmMark t))).length < 3
  · rw [if_pos hb]
    have h := pmReactivateTop_min_active (items.map (pmMark t))
    simpa using h
  · rw [if_neg hb]
    exact le_trans (min_le_left 3 items.length) (not_lt.mp hb)

/-- The marking pass preserves probabilities. -/
theorem pmMark_probability (t : ℚ) (it : Item) :
    (pmMark t it).probability = it.probability := by
  unfold pmMark
  split_ifs <;> rfl

/-- An item at or above the threshold is untouched by the marking pass. -/
theorem pmMark_of_not_lt (t : ℚ) (it : Item) (h : ¬ it.probability < t) :
    pmMark t it = it := by
  unfold pmMark
  rw [if_neg h]

/-- An un-eliminated item of strictly greatest weight is still
un-eliminated after `soft_filter`. -/
theorem pmSoftFilter_keeps_unique_max (t : ℚ) (items : List Item) (j : Nat)
    (hj : j < items.length)
    (hmax : ∀ k, ∀ hk : k < items.length, k ≠ j →
      (items.get ⟨k, hk⟩).probability < (items.get ⟨j, hj⟩).probability)
    (hact : (items.get ⟨j, hj⟩).eliminated = false) :
    ((pmSoftFilter t items)[j]?).map Item.eliminated = some false := by
  simp only [pmSoftFilter]
  set items1 := items.map (pmMark t) with hitems1
  have hlen1 : items1.length = items.length := by simp [hitems1]
  have hj1 : j < items1.length := by rw [hlen1]; exact hj
  have hget1 : ∀ k (hk : k < items.length),
      items1.get ⟨k, by rw [hlen1]; exact hk⟩ = pmMark t (items.get ⟨k, hk⟩) := by
    intro k hk
    simp [hitems1]
  have hprob1 : ∀ k (hk : k < items.length),
      (items1.get ⟨k, by rw [hlen1]; exact hk⟩).probability
        = (items.get ⟨k, hk⟩).probability := by
    intro k hk
    rw [hget1 k hk, pmMark_probability]
  have hreact : ((pmReactivateTop items1)[j]?).map Item.eliminated
      = some (if j ∈ ((List.insertionSort probDesc items1.enum).take 3).map
            Prod.fst
          then false else (items1.get ⟨j, hj1⟩).eliminated) := by
    simp only [pmReactivateTop]
    rw [List.getElem?_map, List.getElem?_enum, List.getElem?_eq_getElem hj1]
    by_cases hc : j ∈ ((List.insertionSort probDesc items1.enum).take 3).map
        Prod.fst
    · rw [if_pos hc]
      simp only [Option.map_some', Option.some.injEq]
      rw [if_pos hc]
    · rw [if_neg hc]
      simp only [Option.map_some', Option.some.injEq]
      rw [if_neg hc]
      rw [List.get_eq_getElem]
  by_cases hpj : (items.get ⟨j, hj⟩).probability < t
  · -- the unique maximum is below the threshold, hence so is every weight:
    -- the marking pass eliminates every item, and the reactivation pass
    -- restores the head of the sorted list, which is the maximum itself.
    have halllt : ∀ x ∈ items, x.probability < t := by
      intro x hx
      obtain ⟨⟨k, hk⟩, rfl⟩ := List.mem_iff_get.mp hx
      by_cases hkj : k = j
      · subst hkj
        exact hpj
      · exact lt_trans (hmax k hk hkj) hpj
    have hall : ∀ x ∈ items1, x.eliminated = true := by
      intro x hx
      obtain ⟨y, hy, rfl⟩ := List.mem_map.mp hx
      unfold pmMark
      rw [if_pos (halllt y hy)]
    have hempty : activeItems items1 = [] := by
      refine List.filter_eq_nil_iff.mpr ?_
      intro x hx
      simp [hall x hx]
    rw [if_pos (by rw [hempty]; norm_num), hreact]
    set s := List.insertionSort probDesc items1.enum with hs
    have hperm : List.Perm items1.enum s :=
      (List.perm_insertionSort probDesc items1.enum).symm
    have hslen : s.length = items.length := by
      rw [← hperm.length_eq, List.enum_length, hlen1]
    have hsne : s ≠ [] := by
      intro hnil
      rw [hnil] at hslen
      simp at hslen
      omega
    obtain ⟨hd, tl, hcons⟩ := List.exists_cons_of_ne_nil hsne
    have hsorted : List.Sorted probDesc s := List.sorted_insertionSort _ _
    have hpair : (j, items1.get ⟨j, hj1⟩) ∈ s :=
      hperm.subset (List.mk_mem_enum_iff_getElem?.mpr (by
        rw [List.getElem?_eq_getElem hj1]
        rw [List.get_eq_getElem]))
    have hhd_mem : hd ∈ items1.enum := hperm.symm.subset (by
      rw [hcons]
      exact List.mem_cons_self hd tl)
    have hhd_spec : items1[hd.1]? = some hd.2 :=
      List.mk_mem_enum_iff_getElem?.mp (by
        rw [show (hd.1, hd.2) = hd from rfl]
        exact hhd_mem)
    have hhd_lt : hd.1 < items.length := by
      obtain ⟨h1, _⟩ := List.getElem?_eq_some.mp hhd_spec
      rw [← hlen1]
      exact h1
    have hhd_lt1 : hd.1 < items1.length := by rw [hlen1]; exact hhd_lt
    have hhd_val : hd.2 = items1.get ⟨hd.1, hhd_lt1⟩ := by
      obtain ⟨h2, h3⟩ := List.getElem?_eq_some.mp hhd_spec
      rw [← h3]
      rw [List.get_eq_getElem]
    have hhd1 : hd.1 = j := by
      by_contra hne
      have hlt : (items.get ⟨hd.1, hhd_lt⟩).probability
          < (items.get ⟨j, hj⟩).probability := hmax hd.1 hhd_lt hne
      have hpair_tl : (j, items1.get ⟨j, hj1⟩) ∈ tl := by
        rcases List.mem_cons.mp (by rw [← hcons]; exact hpair) with h | h
        · exfalso
          apply hne
          have hfst : hd.1 = (j, items1.get ⟨j, hj1⟩).1 := by rw [← h]
          simpa using hfst
        · exact h
      have hsorted' : List.Sorted probDesc (hd :: tl) := by
        rw [← hcons]
        exact hsorted
      have hrel : probDesc hd (j, items1.get ⟨j, hj1⟩) :=
        (List.sorted_cons.mp hsorted').1 _ hpair_tl
      unfold probDesc at hrel
      simp only at hrel
      have e1 : (items1.get ⟨j, hj1⟩).probability
          = (items.get ⟨j, hj⟩).probability := hprob1 j hj
      have e2 : hd.2.probability = (items.get ⟨hd.1, hhd_lt⟩).probability := by
        rw [hhd_val]
        exact hprob1 hd.1 hhd_lt
      rw [e1, e2] at hrel
      exact absurd hrel (not_le.mpr hlt)
    have hjtop : j ∈ (s.take 3).map Prod.fst := by
      have hhead : hd ∈ s.take 3 := by
        rw [hcons]
        exact List.mem_cons_self hd _
      have hmem2 : hd.1 ∈ (s.take 3).map Prod.fst :=
        List.mem_map_of_mem Prod.fst hhead
      rw [hhd1] at hmem2
      exact hmem2
    rw [if_pos hjtop]
  · -- the unique maximum is at or above the threshold: the marking pass
    -- leaves it alone and the reactivation pass never eliminates anything.
    have hjsame : items1.get ⟨j, hj1⟩ = items.get ⟨j, hj⟩ := by
      rw [hget1 j hj, pmMark_of_not_lt t _ hpj]
    by_cases hb : (activeItems items1).length < 3
    · rw [if_pos hb, hreact]
      split_ifs with hc
      · rfl
      · rw [hjsame, hact]
    · rw [if_neg hb]
      rw [List.getElem?_eq_getElem hj1]
      simp only [Option.map_some', Option.some.injEq]
      show (items1.get ⟨j, hj1⟩).eliminated = false
      rw [hjsame]
      exact hact

/-- C6 counterexample: the elimination pass actually run after every
answer — the engine's `_soft_filter_items` — has no top-k floor: with
three active items all below the 0.01 threshold it eliminates every item,
including the strictly highest-weight `dimItem1`, leaving zero (fewer than
2) items un-eliminated. -/
theorem c6_engine_filter_counterexample :
    dimItem2.probability < dimItem1.probability ∧
    dimItem3.probability < dimItem1.probability ∧
    (engineSoftFilter [dimItem1, dimItem2, dimItem3]).map Item.eliminated
      = [true, true, true] ∧
    (activeItems (engineSoftFilter [dimItem1, dimItem2, dimItem3])).length
      = 0 := by
  refine ⟨by norm_num [dimItem1, dimItem2], by norm_num [dimItem1, dimItem3],
    ?_, ?_⟩ <;>
    norm_num [engineSoftFilter, activeItems, dimItem1, dimItem2, dimItem3]

/-- C6 (amended): the floor guarantees hold for
`ProbabilityManager.soft_filter` (which the engine's `process_answer` does
not call): after it, at least `min(3, n)` items are un-eliminated for any
threshold, and an item of strictly greatest weight that was un-eliminated
before the pass is still un-eliminated after it.  The engine's own
`_soft_filter_items` pass offers no such guarantee (see the
counterexample). -/
theorem c6_soft_filter_floor (t : ℚ) (items : List Item) (j : Nat)
    (hj : j < items.length)
    (hmax : ∀ k, ∀ hk : k < items.length, k ≠ j →
      (items.get ⟨k, hk⟩).probability < (items.get ⟨j, hj⟩).probability)
    (hact : (items.get ⟨j, hj⟩).eliminated = false) :
    min 3 items.length ≤ (activeItems (pmSoftFilter t items)).length ∧
    ((pmSoftFilter t items)[j]?).map Item.eliminated = some false :=
  ⟨pmSoftFilter_min_active t items,
    pmSoftFilter_keeps_unique_max t items j hj hmax hact⟩

/-- C6 witness: the soft-filter floor at a concrete two-item state whose
strict maximum sits at index 0 (threshold 0.01). -/
theorem c6_soft_filter_floor_witness :
    0 < [halfItem1, quarterItem].length ∧
    (min 3 [halfItem1, quarterItem].length
        ≤ (activeItems (pmSoftFilter (1/100) [halfItem1, quarterItem])).length ∧
      ((pmSoftFilter (1/100) [halfItem1, quarterItem])[0]?).map Item.eliminated
        = some false) := by
  refine ⟨by norm_num, c6_soft_filter_floor (1/100) [halfItem1, quarterItem] 0
    (by norm_num) ?_ rfl⟩
  intro k hk hne
  match k with
  | 0 => exact absurd rfl hne
  | 1 =>
    show quarterItem.probability < halfItem1.probability
    norm_num [quarterItem, halfItem1]
  | (n + 2) =>
    exact absurd hk (by simp)

/-- C4: the information gain of any question on any item list lies in the
closed interval [0,1]; and whenever the split puts every active item (and
hence 100% of the probability mass) on one side — in particular whenever
every active item shares the same value for the attribute — the gain is
exactly 0. -/
theorem c4_info_gain_bounds_and_zero (items : List Item) (a v : String) :
    (0 ≤ infoGainCalculate items a v ∧ infoGainCalculate items a v ≤ 1) ∧
    (((∀ it ∈ activeItems items, attrMatches it a v = true) ∨
      (∀ it ∈ activeItems items, attrMatches it a v = false)) →
      infoGainCalculate items a v = 0) := by
  constructor
  · simp only [infoGainCalculate]
    split_ifs <;>
      first
        | exact ⟨le_refl 0, by norm_num⟩
        | exact ⟨le_max_left 0 _, max_le (by norm_num) (min_le_left 1 _)⟩
  · intro h
    simp only [infoGainCalculate]
    by_cases he : (activeItems items).isEmpty
    · rw [if_pos he]
    · rw [if_neg he]
      by_cases ht : ((activeItems items).map Item.probability).sum = 0
      · rw [if_pos ht]
      · rw [if_neg ht]
        rcases h with h1 | h1
        · have hY : (activeItems items).filter
              (fun it => attrMatches it a v) = activeItems items :=
            List.filter_eq_self.mpr (by
              intro it hit
              simp [h1 it hit])
          have hN : (activeItems items).filter
              (fun it => !(attrMatches it a v)) = [] :=
            List.filter_eq_nil_iff.mpr (by
              intro it hit
              simp [h1 it hit])
          simp only [splitItems, hY, hN, List.map_nil, List.sum_nil]
          rw [div_self ht]
          push_cast
          rw [zero_div]
          simp [ite_self]
        · have hY : (activeItems items).filter
              (fun it => attrMatches it a v) = [] :=
            List.filter_eq_nil_iff.mpr (by
              intro it hit
              simp [h1 it hit])
          have hN : (activeItems items).filter
              (fun it => !(attrMatches it a v)) = activeItems items :=
            List.filter_eq_self.mpr (by
              intro it hit
              simp [h1 it hit])
          simp only [splitItems, hY, hN, List.map_nil, List.sum_nil]
          rw [div_self ht]
          push_cast
          rw [zero_div]
          simp [ite_self]

/-- C4 witness: bounds and the zero case at a concrete all-`asia` pair. -/
theorem c4_info_gain_bounds_and_zero_witness :
    (0 ≤ infoGainCalculate [itemA, itemC] "continent" "asia" ∧
      infoGainCalculate [itemA, itemC] "continent" "asia" ≤ 1) ∧
    infoGainCalculate [itemA, itemC] "continent" "asia" = 0 :=
  ⟨(c4_info_gain_bounds_and_zero [itemA, itemC] "continent" "asia").1,
    (c4_info_gain_bounds_and_zero [itemA, itemC] "continent" "asia").2
      (Or.inl (by decide))⟩

/-- C5 counterexample: with exactly one active item the confidence
calculator returns the sentinel 95.0, which is less than 99 — not the
claimed ≈99.9. -/
theorem c5_single_item_sentinel_counterexample :
    confidenceCalculate [itemA] = 95 ∧ (95 : ℝ) < 99 := by
  constructor
  · norm_num [confidenceCalculate, activeItems, itemA]
  · norm_num

/-- C5 (amended): the confidence calculation returns 0 when no active item
remains and the near-maximum sentinel 95.0 (not 99.9) when exactly one
remains, bypassing the blended formula; every result is capped at 95.0 via
`min(95.0, ...)`; and at the sentinel confidence 95 `should_make_guess`
returns true for every question count (the `confidence >= 95` branch). -/
theorem c5_confidence_sentinel_and_cap (items : List Item) (q m : Nat) :
    (activeItems items = [] → confidenceCalculate items = 0) ∧
    ((activeItems items).length = 1 → confidenceCalculate items = 95) ∧
    confidenceCalculate items ≤ 95 ∧
    shouldMakeGuess 95 q m = true := by
  refine ⟨?_, ?_, ?_, ?_⟩
  · intro h
    simp [confidenceCalculate, h]
  · intro h
    have hne : (activeItems items).isEmpty = false := by
      cases hA : activeItems items with
      | nil =>
        rw [hA] at h
        simp at h
      | cons x xs => rfl
    simp [confidenceCalculate, hne, h]
  · simp only [confidenceCalculate]
    split_ifs
    · norm_num
    · norm_num
    · exact min_le_left 95 _
  · unfold shouldMakeGuess
    split_ifs with h1 h2 h3
    · rfl
    · rfl
    · rfl
    · exact absurd (le_refl (95 : ℝ)) h2

/-- C5 witness: the sentinel, cap and guess decision at concrete states. -/
theorem c5_confidence_sentinel_and_cap_witness :
    (activeItems ([] : List Item) = [] ∧ confidenceCalculate [] = 0) ∧
    ((activeItems [itemA]).length = 1 ∧ confidenceCalculate [itemA] = 95) ∧
    confidenceCalculate [itemA] ≤ 95 ∧
    shouldMakeGuess 95 3 15 = true :=
  ⟨⟨rfl, (c5_confidence_sentinel_and_cap [] 3 15).1 rfl⟩,
    ⟨rfl, (c5_confidence_sentinel_and_cap [itemA] 3 15).2.1 rfl⟩,
    (c5_confidence_sentinel_and_cap [itemA] 3 15).2.2.1,
    (c5_confidence_sentinel_and_cap [itemA] 3 15).2.2.2⟩

/-- C8: on a state that reaches the scoring loop — two active items, one
candidate question surviving pruning — `select_best_question` raises
`TypeError` from its `bayesian_network.score_question(question)` call
(which omits the required `answer_history` argument) instead of returning
the argmax question; the deterministic-selection contract can never be
observed.  The first conjunct shows pruning does keep the candidate, so
the failure genuinely occurs in the scoring loop. -/
theorem c8_selector_type_error :
    pruneRedundantQuestions [qAsia] [halfItem1, halfItem2] [] = [qAsia] ∧
    selectBestQuestionEff [qAsia] [halfItem1, halfItem2] []
      = .error (.typeError
          "score_question() missing 1 required positional argument: answer_history") := by
  constructor <;> rfl

/-- C9 counterexample: scoring the balance of a candidate question against
a single active item does not append a match-history entry — it raises
`KeyError('question')`, because `_score_question_by_balance` passes a dict
without the `'question'` key to `Item.matches_question`. -/
theorem c9_balance_key_error_counterexample :
    scoreQuestionByBalanceEff [halfItem1] qAsia
      = .error (.keyError "question") := by
  rfl

/-- Folding the balance loop over any list containing a non-eliminated
item fails with `KeyError('question')`: the first such item's
`matches_question` call evaluates `question['question']` on the stripped
test dict. -/
theorem balance_foldlM_error (q : Question) (l : List Item)
    (hsome : ∃ x ∈ l, x.eliminated = false) (acc : Nat × Nat × List Item) :
    l.foldlM (balanceStep ⟨q.attr, q.value, none⟩) acc
      = .error (.keyError "question") := by
  induction l generalizing acc with
  | nil =>
    obtain ⟨y, hy, _⟩ := hsome
    exact absurd hy (List.not_mem_nil y)
  | cons x xs ih =>
    obtain ⟨y, hy, hyel⟩ := hsome
    by_cases hx : x.eliminated
    · have hyxs : y ∈ xs := by
        rcases List.mem_cons.mp hy with rfl | h
        · rw [hx] at hyel
          exact absurd hyel (by simp)
        · exact h
      rw [List.foldlM_cons]
      rw [show balanceStep ⟨q.attr, q.value, none⟩ acc x
          = pure (acc.1, acc.2.1, acc.2.2 ++ [x]) from by
        simp only [balanceStep, hx, if_true]
        rfl]
      rw [pure_bind]
      exact ih ⟨y, hyxs, hyel⟩ _
    · rw [List.foldlM_cons]
      rw [show balanceStep ⟨q.attr, q.value, none⟩ acc x
          = Except.error (.keyError "question") from by
        simp only [balanceStep, hx, Bool.false_eq_true, if_false,
          matchesQuestionEff]
        rfl]
      rfl

/-- C9 (amended): `Item.matches_question` appends a `(question-text,
matched)` entry to the item's match history when the question dict carries
the `'question'` key; but the dict `_score_question_by_balance` passes is
stripped to `{attribute, value}`, so scoring a candidate question against
any item list containing a non-eliminated item raises `KeyError('question')`
— candidate scoring never actually appends match-history entries (it is
side-effecting by exception, not by logging). -/
theorem c9_balance_scoring_key_error (it : Item) (qd : QDict) (t : String)
    (items : List Item) (q : Question)
    (htext : qd.text = some t)
    (hsome : ∃ x ∈ items, x.eliminated = false) :
    matchesQuestionEff it qd
      = .ok (attrMatches it qd.attr qd.value,
          { it with matchHistory := it.matchHistory
            ++ [(t, attrMatches it qd.attr qd.value)] }) ∧
    scoreQuestionByBalanceEff items q = .error (.keyError "question") := by
  constructor
  · unfold matchesQuestionEff
    rw [htext]
  · have hne : items.isEmpty = false := by
      obtain ⟨y, hy, _⟩ := hsome
      cases items with
      | nil => exact absurd hy (List.not_mem_nil y)
      | cons a l => rfl
    simp only [scoreQuestionByBalanceEff, hne, Bool.false_eq_true, if_false]
    rw [balance_foldlM_error q items hsome]
    rfl

/-- C9 witness: the append form and the scoring failure at concrete
inputs. -/
theorem c9_balance_scoring_key_error_witness :
    matchesQuestionEff halfItem1
        ⟨"continent", "asia", some "Is it located in Asia?"⟩
      = .ok (attrMatches halfItem1 "continent" "asia",
          { halfItem1 with matchHistory := halfItem1.matchHistory
            ++ [("Is it located in Asia?",
                  attrMatches halfItem1 "continent" "asia")] }) ∧
    scoreQuestionByBalanceEff [halfItem2] qAsia
      = .error (.keyError "question") :=
  c9_balance_scoring_key_error halfItem1
    ⟨"continent", "asia", some "Is it located in Asia?"⟩
    "Is it located in Asia?" [halfItem2] qAsia rfl
    ⟨halfItem2, List.mem_cons_self halfItem2 [], rfl⟩
